import Mathlib

/-!
Shallow embedding of `src/SurvivalAnalysisUtils.py` (class `ReusableUtils`)
and proofs about its two routines,
`PlotKaplanMeierEstimatesForCategoricalVariables` and
`PlotKaplanMeierEstimatesForContinuousVariables`.

Modelling conventions:
* Python numbers (int64 / float64 cells, cut points) are exact rationals,
  represented as an integer numerator over a positive natural denominator
  (`PyQ`), kept unnormalized; comparisons cross-multiply.  Machine-float
  rounding is abstracted away: every number appearing in the claims is a
  short decimal, represented exactly.
* A pandas `DataFrame` is an ordered list of named columns of cell values.
* `lifelines.KaplanMeierFitter().fit(durations, event_observed, label)` is
  an external black box (spec section 6); a `Fit` records exactly the data
  handed to it: the durations, the event indicators and the label.
* `matplotlib` figures are a list of panels; `x.plot(..., ax=panel)` appends
  the curve to the panel and sets its title; `set_visible(False)` clears the
  visibility flag.  `plt.show` has no observable effect beyond the figure.
* Exceptions (`KeyError` from column lookup, `IndexError` from list
  indexing, `TypeError` from `pd.cut` on non-numeric data, `ValueError`
  from bad bin specs) are the `Except PyErr` monad; an escaping exception
  is an `.error` outcome of the routine.
* `np.unique` over a column returns the distinct values in ascending
  order.  Over the binned column the backing object array holds
  `pd.Interval`s, with `float nan` for rows whose value falls in no bin:
  when both occur, the sort inside `np.unique` raises `TypeError`
  (intervals and floats are unorderable); NaNs never compare equal, so
  an all-out-of-range column keeps one NaN per row.
-/

namespace HF

instance {ε α : Type} [DecidableEq ε] [DecidableEq α] : DecidableEq (Except ε α) := fun a b =>
  match a, b with
  | .ok x, .ok y =>
    match decEq x y with
    | isTrue h => isTrue (h ▸ rfl)
    | isFalse h => isFalse (fun hh => h (Except.ok.inj hh))
  | .error e, .error e2 =>
    match decEq e e2 with
    | isTrue h => isTrue (h ▸ rfl)
    | isFalse h => isFalse (fun hh => h (Except.error.inj hh))
  | .ok _, .error _ => isFalse (fun hh => Except.noConfusion hh)
  | .error _, .ok _ => isFalse (fun hh => Except.noConfusion hh)

/-- Exact rational value of a Python number: numerator over a (positive)
natural denominator, not necessarily in lowest terms. -/
structure PyQ where
  n : Int
  d : Nat
  deriving Repr, DecidableEq

/-- Integer-valued number (denominator 1). -/
def qint (n : Int) : PyQ := ⟨n, 1⟩

/-- `a < b` by cross-multiplication (denominators are positive). -/
def qlt (a b : PyQ) : Bool := a.n * (b.d : Int) < b.n * (a.d : Int)

/-- `a ≤ b` by cross-multiplication (denominators are positive). -/
def qle (a b : PyQ) : Bool := a.n * (b.d : Int) ≤ b.n * (a.d : Int)

/-- `a == b` by cross-multiplication (denominators are positive). -/
def qeq (a b : PyQ) : Bool := a.n * (b.d : Int) == b.n * (a.d : Int)

def qadd (a b : PyQ) : PyQ := ⟨a.n * b.d + b.n * a.d, a.d * b.d⟩

def qsub (a b : PyQ) : PyQ := ⟨a.n * b.d - b.n * a.d, a.d * b.d⟩

def qmulNat (a : PyQ) (k : Nat) : PyQ := ⟨a.n * k, a.d⟩

def qdivNat (a : PyQ) (k : Nat) : PyQ := ⟨a.n, a.d * k⟩

def qabs (a : PyQ) : PyQ := ⟨|a.n|, a.d⟩

/-- The rational a `PyQ` denotes (used in proofs only). -/
def PyQ.toRat (a : PyQ) : ℚ := (a.n : ℚ) / (a.d : ℚ)

/-- Python's decimal rendering of a float (`str(30.0) = "30.0"`), for values
with a finite decimal expansion; endpoints appearing in labels in the source
are all short decimals.  Non-decimal values (which arise only from
count-based bins, whose exact rendering would be float64-rounding noise)
are abstracted to a placeholder. -/
def floatRepr (q : PyQ) : String :=
  match (List.range 17).find? (fun k => q.n.natAbs * 10 ^ k % q.d == 0) with
  | some k =>
    let digits := (toString (q.n.natAbs * 10 ^ k / q.d)).data
    let padded := List.replicate (k + 1 - digits.length) '0' ++ digits
    let ip := padded.take (padded.length - k)
    let fp := if k == 0 then ['0'] else padded.drop (padded.length - k)
    String.mk ((if q.n < 0 then ['-'] else []) ++ ip ++ ['.'] ++ fp)
  | none => "~"

/-- A cell value of the table: numpy int64, float64, string, a
`pd.Interval` (values of the temporary binned column), or NaN. -/
inductive PyVal where
  | pint (n : Int)
  | pfloat (q : PyQ)
  | pstr (s : String)
  | pcat (lo hi : PyQ)
  | pnan
  deriving Repr, DecidableEq

def PyVal.asQ? : PyVal → Option PyQ
  | .pint n => some ⟨n, 1⟩
  | .pfloat q => some q
  | _ => none

/-- Python `==` on cell values: numerics compare numerically, strings by
content, intervals by endpoints; NaN equals nothing, mixed kinds differ. -/
def pyEq (a b : PyVal) : Bool :=
  match a, b with
  | .pstr s, .pstr t => decide (s = t)
  | .pcat a1 a2, .pcat b1 b2 => qeq a1 b1 && qeq a2 b2
  | a, b =>
    match a.asQ?, b.asQ? with
    | some x, some y => qeq x y
    | _, _ => false

def charListLt : List Char → List Char → Bool
  | [], [] => false
  | [], _ :: _ => true
  | _ :: _, [] => false
  | a :: as, b :: bs =>
    if a.toNat < b.toNat then true
    else if a.toNat == b.toNat then charListLt as bs
    else false

/-- The strict order `np.unique` sorts by: numeric, lexicographic on
strings, endpoint-lexicographic on intervals.  (A real numpy array is
homogeneous; across kinds the order is immaterial and taken to be false.) -/
def pyLt (a b : PyVal) : Bool :=
  match a, b with
  | .pstr s, .pstr t => charListLt s.data t.data
  | .pcat a1 a2, .pcat b1 b2 => qlt a1 b1 || (qeq a1 b1 && qlt a2 b2)
  | a, b =>
    match a.asQ?, b.asQ? with
    | some x, some y => qlt x y
    | _, _ => false

/-- Insert a value into an ascending duplicate-free list, keeping it
ascending and duplicate-free. -/
def insertUnique (v : PyVal) : List PyVal → List PyVal
  | [] => [v]
  | w :: ws =>
    if pyLt v w then v :: w :: ws
    else if pyEq v w then w :: ws
    else w :: insertUnique v ws

/-- `np.unique`: the distinct values of a column, ascending. -/
def uniqueSorted (l : List PyVal) : List PyVal := l.foldr insertUnique []

/-- Exception kinds that escape the two routines. -/
inductive PyErr where
  | keyError (k : String)
  | indexError
  | typeError
  | valueError
  deriving Repr, DecidableEq

/-- A pandas DataFrame: named columns of cell values, in order. -/
structure DataFrame where
  cols : List (String × List PyVal)
  deriving Repr, DecidableEq

def DataFrame.getCol (df : DataFrame) (c : String) : Option (List PyVal) :=
  (df.cols.find? (fun p => decide (p.1 = c))).map (fun p => p.2)

def DataFrame.hasCol (df : DataFrame) (c : String) : Bool := (df.getCol c).isSome

/-- `data[c] = vs`: overwrite the column if present, else append it. -/
def DataFrame.setCol (df : DataFrame) (c : String) (vs : List PyVal) : DataFrame :=
  if df.hasCol c then ⟨df.cols.map (fun p => if p.1 = c then (c, vs) else p)⟩
  else ⟨df.cols ++ [(c, vs)]⟩

/-- `data.drop(c, axis=1, inplace=True)`. -/
def DataFrame.dropCol (df : DataFrame) (c : String) : DataFrame :=
  ⟨df.cols.filter (fun p => !decide (p.1 = c))⟩

/-- `data.loc(axis=1)[columns]`: project onto the listed columns; a listed
column absent from the table raises `KeyError`. -/
def dfProject (df : DataFrame) (cs : List String) : Except PyErr DataFrame :=
  match cs.find? (fun c => !df.hasCol c) with
  | some c => .error (.keyError c)
  | none => .ok ⟨cs.filterMap (fun c => (df.getCol c).map (fun vs => (c, vs)))⟩

/-- The data handed to one `KaplanMeierFitter().fit(...)` call: the
subgroup's durations, its event indicators, and the curve label. -/
structure Fit where
  durations : List PyVal
  events : List PyVal
  label : String
  deriving Repr, DecidableEq

/-- `data[data[c] == v][out]`: the `out`-column entries of the rows whose
`c`-column entry equals `v`. -/
def subgroupSeries (df : DataFrame) (c : String) (v : PyVal) (out : String) : List PyVal :=
  match df.getCol c, df.getCol out with
  | some cv, some ov => ((cv.enum).filter (fun p => pyEq p.2 v)).filterMap (fun p => ov[p.1]?)
  | _, _ => []

/-- As `subgroupSeries`, but raising `KeyError` when a column is absent
(the row-filter touches column `c`, the projection column `out`). -/
def subSeries (df : DataFrame) (c : String) (v : PyVal) (out : String) :
    Except PyErr (List PyVal) :=
  match df.getCol c with
  | none => .error (.keyError c)
  | some _ =>
    match df.getCol out with
    | none => .error (.keyError out)
    | some _ => .ok (subgroupSeries df c v out)

/-- `[KaplanMeierFitter().fit(x_i, y_i, label=fit_label[i]) for i,(x_i,y_i)
in enumerate(zip(X, Y))]`. -/
def mkFits (X Y : List (List PyVal)) (labels : List String) : List Fit :=
  ((X.zip Y).zip labels).map (fun p => ⟨p.1.1, p.1.2, p.2⟩)

/-- `str(value)` as Python renders a cell (`str(0) = "0"`,
`str(30.0) = "30.0"`, `str(pd.Interval(30.0, 60.0)) = "(30.0, 60.0]"`). -/
def pyStr : PyVal → String
  | .pint n => toString n
  | .pfloat q => floatRepr q
  | .pstr s => s
  | .pcat lo hi => "(" ++ floatRepr lo ++ ", " ++ floatRepr hi ++ "]"
  | .pnan => "nan"

/-- `km_fits` nested in `PlotKaplanMeierEstimatesForCategoricalVariables`
(src lines 43-68): one Kaplan-Meier fit per distinct observed value of
`curr_Feature`, on the `time` / `DEATH_EVENT` entries of the matching rows,
labeled `"<feature>: <value>"`. -/
def kmFitsCat (df : DataFrame) (f : String) : Except PyErr (List Fit) :=
  match df.getCol f with
  | none => .error (.keyError f)
  | some vs =>
    match (uniqueSorted vs).mapM (fun v => subSeries df f v "time") with
    | .error e => .error e
    | .ok X =>
      match (uniqueSorted vs).mapM (fun v => subSeries df f v "DEATH_EVENT") with
      | .error e => .error e
      | .ok Y =>
        .ok (mkFits X Y ((uniqueSorted vs).map (fun v => f ++ ": " ++ pyStr v)))

/-- One grid cell of the figure: title, overlaid curves, visibility. -/
structure Panel where
  title : Option String
  curves : List Fit
  visible : Bool
  deriving Repr, DecidableEq

structure Figure where
  panels : List Panel
  deriving Repr, DecidableEq

/-- `plt.subplots(nrows, ncols)` flattened: `n` empty visible panels. -/
def mkPanels (n : Nat) : List Panel := List.replicate n ⟨none, [], true⟩

/-- One `x.plot(title=feature, ..., ax=panel)` call: sets the panel title
and overlays the curve. -/
def plotOne (p : Panel) (t : String) (f : Fit) : Panel := ⟨some t, p.curves ++ [f], p.visible⟩

/-- `[x.plot(title=feature, ..., ax=ax.flatten()[idx]) for x in fits]`:
plots each curve into panel `idx`; `ax.flatten()[idx]` raises `IndexError`
when `idx` is out of range (touched once per curve). -/
def plotFits : List Panel → Nat → String → List Fit → List Panel × Except PyErr Unit
  | ps, _, _, [] => (ps, .ok ())
  | ps, idx, t, f :: fs =>
    match ps[idx]? with
    | none => (ps, .error .indexError)
    | some p => plotFits (ps.set idx (plotOne p t f)) idx t fs

/-- `ax.flatten()[i].set_visible(False)`. -/
def hideAt (ps : List Panel) (i : Nat) : List Panel :=
  match ps[i]? with
  | none => ps
  | some p => ps.set i ⟨p.title, p.curves, false⟩

/-- Observable outcome of one routine call: every fit performed (in
order), the figure if `plt.subplots` ran (with whatever panel state the
call left), the caller's dataset afterwards, and normal return or the
escaping exception. -/
structure RunResult where
  fits : List Fit
  figure : Option Figure
  data : DataFrame
  result : Except PyErr Unit
  deriving Repr, DecidableEq

/-- The `for idx, feature in enumerate(categorical_columns)` loop of the
categorical routine (src lines 70-76). -/
def catLoop (df : DataFrame) : List String → Nat → List Panel →
    List Fit × List Panel × Except PyErr Unit
  | [], _, ps => ([], ps, .ok ())
  | f :: rest, idx, ps =>
    match kmFitsCat df f with
    | .error e => ([], ps, .error e)
    | .ok fits =>
      match plotFits ps idx f fits with
      | (ps1, .error e) => (fits, ps1, .error e)
      | (ps1, .ok _) =>
        let r := catLoop df rest (idx + 1) ps1
        (fits ++ r.1, r.2.1, r.2.2)

/-- `PlotKaplanMeierEstimatesForCategoricalVariables(data,
categorical_columns)` (src lines 15-82): project onto the listed columns
(line 38, result otherwise unused), build the 2x3 grid, fit and plot per
column, hide the last panel, show. -/
def PlotKaplanMeierEstimatesForCategoricalVariables (data : DataFrame)
    (categorical_columns : List String) : RunResult :=
  match dfProject data categorical_columns with
  | .error e => ⟨[], none, data, .error e⟩
  | .ok _categoricalData =>
    let r := catLoop data categorical_columns 0 (mkPanels (2 * 3))
    match r.2.2 with
    | .error e => ⟨r.1, some ⟨r.2.1⟩, data, .error e⟩
    | .ok _ => ⟨r.1, some ⟨hideAt r.2.1 (2 * 3 - 1)⟩, data, .ok ()⟩

/-- A bin spec handed to `pd.cut`: explicit cut points, or a bin count. -/
inductive SplitSpec where
  | pts (l : List PyQ)
  | cnt (n : Nat)
  deriving Repr, DecidableEq

/-- All cells numeric (else `pd.cut` raises `TypeError`). -/
def numQs? (vs : List PyVal) : Option (List PyQ) := vs.mapM PyVal.asQ?

def strictIncr : List PyQ → Bool
  | a :: b :: rest => qlt a b && strictIncr (b :: rest)
  | _ => true

def rmin : List PyQ → Option PyQ
  | [] => none
  | x :: xs => some (match rmin xs with | none => x | some m => if qle x m then x else m)

def rmax : List PyQ → Option PyQ
  | [] => none
  | x :: xs => some (match rmax xs with | none => x | some m => if qle m x then x else m)

/-- `np.linspace(a, b, m + 1)`. -/
def linspace (a b : PyQ) (m : Nat) : List PyQ :=
  (List.range (m + 1)).map (fun i => qadd a (qdivNat (qmulNat (qsub b a) i) m))

/-- The bin edges `pd.cut` uses: explicit cut points must increase
monotonically; an integer count `n` spans `[min, max]` of the column in
`n` equal bins, the lowest edge lowered by 0.1% of the range (pandas'
`right=True` adjustment; when `min == max` both ends are padded). -/
def cutEdges (vals : List PyQ) : SplitSpec → Except PyErr (List PyQ)
  | .pts l => if strictIncr l then .ok l else .error .valueError
  | .cnt n =>
    if n == 0 then .error .valueError
    else
      match rmin vals, rmax vals with
      | some mn, some mx =>
        if qeq mn mx then
          let adjn := if qeq mn (qint 0) then (⟨1, 1000⟩ : PyQ) else qdivNat (qabs mn) 1000
          .ok (linspace (qsub mn adjn) (qadd mx adjn) n)
        else
          let adj := qdivNat (qsub mx mn) 1000
          match linspace mn mx n with
          | [] => .ok []
          | e0 :: tl => .ok (qsub e0 adj :: tl)
      | _, _ => .error .valueError

/-- The half-open bin `(lo, hi]` of edges `es` containing `x`, if any
(`pd.cut` is right-closed and excludes values at or below the lowest
edge and above the highest). -/
def binOf : List PyQ → PyQ → Option (PyQ × PyQ)
  | lo :: hi :: rest, x =>
    if qlt lo x && qle x hi then some (lo, hi) else binOf (hi :: rest) x
  | _, _ => none

/-- The binned column `pd.cut(x=data[f], bins=...)`: each row's interval,
NaN when the value falls in no bin. -/
def cutColumn (es : List PyQ) (xs : List PyQ) : List PyVal :=
  xs.map (fun x => match binOf es x with | some p => PyVal.pcat p.1 p.2 | none => PyVal.pnan)

/-- Whether `np.unique(bins)` raises: the object array behind the binned
column holds both a `float nan` (an out-of-range row) and `pd.Interval`
objects, which Python cannot order, so the sort inside `np.unique`
raises `TypeError`. -/
def mixedNaN (bins : List PyVal) : Bool :=
  bins.any (fun v => decide (v = PyVal.pnan)) &&
    bins.any (fun v => !decide (v = PyVal.pnan))

/-- `np.unique(bins)` when its sort succeeds: the distinct values,
ascending.  NaN entries never compare equal, so (as for object-dtype
`np.unique`) an all-out-of-range column keeps one NaN per row. -/
def observedBins (bins : List PyVal) : List PyVal :=
  uniqueSorted bins

/-- Python `s.replace(old, new)` for a one-character pattern (the source
only replaces `','` and `']'`). -/
def strReplaceChar (s : String) (old : Char) (new : String) : String :=
  String.mk (s.data.foldr (fun c acc => (if c == old then new.data else [c]) ++ acc) [])

/-- `km_fits` nested in `PlotKaplanMeierEstimatesForContinuousVariables`
(src lines 113-143): bin the column; `np.unique(bins)` at line 130
raises `TypeError` when the binned array mixes NaN (out-of-range rows)
with intervals - before the scratch column is added; otherwise store
the bins in the temporary `"<feature>_group"` column of the caller's
dataset, fit one curve per observed bin on the matching rows' `time` /
`DEATH_EVENT` entries with label
`str(bin).replace(',', ' -').replace(']', ')')`, then drop the
temporary column.  Returns the dataset as the call leaves it (the scratch
column survives an exception raised between its addition and the drop). -/
def kmFitsCont (df : DataFrame) (f : String) (split_points : SplitSpec) :
    DataFrame × Except PyErr (List Fit) :=
  match df.getCol f with
  | none => (df, .error (.keyError f))
  | some vs =>
    match numQs? vs with
    | none => (df, .error .typeError)
    | some xs =>
      match cutEdges xs split_points with
      | .error e => (df, .error e)
      | .ok es =>
        let binsCol := cutColumn es xs
        if mixedNaN binsCol then (df, .error .typeError)
        else
          let range_hue := observedBins binsCol
          let hue_group := f ++ "_group"
          let df1 := df.setCol hue_group binsCol
          match range_hue.mapM (fun v => subSeries df1 hue_group v "time") with
          | .error e => (df1, .error e)
          | .ok X =>
            match range_hue.mapM (fun v => subSeries df1 hue_group v "DEATH_EVENT") with
            | .error e => (df1, .error e)
            | .ok Y =>
              let fit_label := range_hue.map
                (fun v => strReplaceChar (strReplaceChar (pyStr v) ',' " -") ']' ")")
              let df2 := df1.dropCol hue_group
              (df2, .ok (mkFits X Y fit_label))

/-- `data_split_points` (src line 145): the positional list of bin
specs, one per continuous column, fixed inside the routine. -/
def data_split_points : List SplitSpec :=
  [.pts [qint 30, qint 60, qint 80, qint 100], .cnt 3,
   .pts [qint 0, qint 30, qint 45, qint 100], .cnt 3, .cnt 3, .cnt 3, .cnt 3]

/-- The `for idx, feature in enumerate(contituous_columns)` loop of the
continuous routine (src lines 147-155): `data_split_points[idx]` is
fetched first (an `IndexError` past the end), then `km_fits`, then the
plots into panel `idx`. -/
def contLoop : DataFrame → List String → Nat → List Panel →
    List Fit × DataFrame × List Panel × Except PyErr Unit
  | df, [], _, ps => ([], df, ps, .ok ())
  | df, f :: rest, idx, ps =>
    match data_split_points[idx]? with
    | none => ([], df, ps, .error .indexError)
    | some spec =>
      match kmFitsCont df f spec with
      | (df1, .error e) => ([], df1, ps, .error e)
      | (df1, .ok fits) =>
        match plotFits ps idx f fits with
        | (ps1, .error e) => (fits, df1, ps1, .error e)
        | (ps1, .ok _) =>
          let r := contLoop df1 rest (idx + 1) ps1
          (fits ++ r.1, r.2.1, r.2.2.1, r.2.2.2)

/-- `PlotKaplanMeierEstimatesForContinuousVariables(data,
contituous_columns)` (src lines 84-162): project onto the listed columns
(line 108, result otherwise unused), build the 3x3 grid, bin / fit / plot
per column, hide the last two panels, show. -/
def PlotKaplanMeierEstimatesForContinuousVariables (data : DataFrame)
    (contituous_columns : List String) : RunResult :=
  match dfProject data contituous_columns with
  | .error e => ⟨[], none, data, .error e⟩
  | .ok _continuousData =>
    let r := contLoop data contituous_columns 0 (mkPanels (3 * 3))
    match r.2.2.2 with
    | .error e => ⟨r.1, some ⟨r.2.2.1⟩, r.2.1, .error e⟩
    | .ok _ => ⟨r.1, some ⟨hideAt (hideAt r.2.2.1 (3 * 3 - 1)) (3 * 3 - 2)⟩, r.2.1, .ok ()⟩

/-- The fits an `Except` outcome carries (none on an exception). -/
def exceptFits (e : Except PyErr (List Fit)) : List Fit :=
  match e with
  | .ok l => l
  | .error _ => []

/-- Whether an `Except` outcome is a normal return. -/
def exOk {α : Type} (e : Except PyErr α) : Bool :=
  match e with
  | .ok _ => true
  | .error _ => false

/-- Numeric cell with a positive denominator (every cell a client can
build with `pint` / well-formed `pfloat` satisfies this). -/
def wfNumB (v : PyVal) : Bool :=
  match v with
  | .pint _ => true
  | .pfloat q => 0 < q.d
  | _ => false

/-- The rational a numeric cell denotes (proof-side key). -/
def keyQ (v : PyVal) : ℚ :=
  match v.asQ? with
  | some q => q.toRat
  | none => 0

/-- Shorthand for an int64 cell. -/
def pI (n : Int) : PyVal := .pint n

/-- 10-row dataset of the C1 scenario: `sex` has 6 rows with value 0 and
4 with value 1. -/
def dfC1 : DataFrame := ⟨[
  ("sex", [pI 0, pI 0, pI 0, pI 0, pI 0, pI 0, pI 1, pI 1, pI 1, pI 1]),
  ("time", [pI 10, pI 20, pI 30, pI 40, pI 50, pI 60, pI 70, pI 80, pI 90, pI 100]),
  ("DEATH_EVENT", [pI 1, pI 0, pI 1, pI 0, pI 1, pI 0, pI 1, pI 0, pI 1, pI 0])]⟩

/-- Dataset of the C2 scenario: `age` values populate all three bins of
the cut points `[30.0, 60.0, 80.0, 100.0]`. -/
def dfC2 : DataFrame := ⟨[
  ("age", [pI 40, pI 50, pI 65, pI 85, pI 90, pI 35]),
  ("time", [pI 1, pI 2, pI 3, pI 4, pI 5, pI 6]),
  ("DEATH_EVENT", [pI 1, pI 0, pI 1, pI 0, pI 1, pI 0])]⟩

/-- 4-row dataset whose `age = 20` row falls below the lowest cut point
`30.0`, hence in no bin. -/
def dfC3 : DataFrame := ⟨[
  ("age", [pI 20, pI 40, pI 70, pI 90]),
  ("time", [pI 1, pI 2, pI 3, pI 4]),
  ("DEATH_EVENT", [pI 1, pI 1, pI 1, pI 1])]⟩

/-- Dataset with an `age` column but no `time` column: the continuous
routine raises `KeyError` after adding the scratch column and before
dropping it. -/
def dfC4 : DataFrame := ⟨[("age", [pI 40])]⟩

/-- Well-formed single-continuous-column dataset (C4 witness). -/
def dfW4 : DataFrame := ⟨[
  ("age", [pI 40]), ("time", [pI 5]), ("DEATH_EVENT", [pI 1])]⟩

/-- Six categorical columns: fills the categorical grid to its stated
bound. -/
def dfC5 : DataFrame := ⟨[
  ("c1", [pI 0]), ("c2", [pI 0]), ("c3", [pI 0]), ("c4", [pI 0]),
  ("c5", [pI 0]), ("c6", [pI 0]),
  ("time", [pI 5]), ("DEATH_EVENT", [pI 1])]⟩

def colsC5 : List String := ["c1", "c2", "c3", "c4", "c5", "c6"]

/-- Single continuous column under an arbitrary name: position 0 pairs it
with the cut points `[30.0, 60.0, 80.0, 100.0]` (C6 witness). -/
def dfW6 : DataFrame := ⟨[
  ("serum_sodium", [pI 35, pI 65]),
  ("time", [pI 1, pI 2]),
  ("DEATH_EVENT", [pI 1, pI 0])]⟩

/-- Eight continuous columns: one more than `data_split_points` has
entries. -/
def dfC7 : DataFrame := ⟨[
  ("c1", [pI 50]), ("c2", [pI 50]), ("c3", [pI 50]), ("c4", [pI 50]),
  ("c5", [pI 50]), ("c6", [pI 50]), ("c7", [pI 50]), ("c8", [pI 50]),
  ("time", [pI 5]), ("DEATH_EVENT", [pI 1])]⟩

def colsC7 : List String := ["c1", "c2", "c3", "c4", "c5", "c6", "c7", "c8"]

/-- Dataset whose listed column holds strings: `pd.cut` raises
`TypeError` (C7 witness). -/
def dfW7 : DataFrame := ⟨[
  ("g", [.pstr "male", .pstr "female"]),
  ("time", [pI 1, pI 2]),
  ("DEATH_EVENT", [pI 1, pI 0])]⟩

/-- Eight continuous columns for the C8 witness. -/
def dfC8 : DataFrame := ⟨[
  ("d1", [pI 50, pI 90]), ("d2", [pI 50, pI 90]), ("d3", [pI 50, pI 90]),
  ("d4", [pI 50, pI 90]), ("d5", [pI 50, pI 90]), ("d6", [pI 50, pI 90]),
  ("d7", [pI 50, pI 90]), ("d8", [pI 50, pI 90]),
  ("time", [pI 5, pI 6]), ("DEATH_EVENT", [pI 1, pI 0])]⟩

def colsC8 : List String := ["d1", "d2", "d3", "d4", "d5", "d6", "d7", "d8"]

/-- Dataset for the C9 witness: `volume` is not one of its columns. -/
def dfW9 : DataFrame := ⟨[
  ("sex", [pI 0]), ("time", [pI 5]), ("DEATH_EVENT", [pI 1])]⟩

theorem exceptMapM_ok {ε α β : Type} (l : List α) (fa : α → Except ε β) (g : α → β)
    (h : ∀ a ∈ l, fa a = .ok (g a)) : l.mapM fa = .ok (l.map g) := by
  induction l with
  | nil => rfl
  | cons a t ih =>
    rw [List.mapM_cons, h a (by simp)]
    rw [ih (fun x hx => h x (by simp [hx]))]
    rfl

theorem subSeries_ok (df : DataFrame) (c : String) (v : PyVal) (out : String)
    (cv ov : List PyVal) (h1 : df.getCol c = some cv) (h2 : df.getCol out = some ov) :
    subSeries df c v out = .ok (subgroupSeries df c v out) := by
  unfold subSeries
  rw [h1, h2]

theorem mkFits_map {γ : Type} (l : List γ) (g1 g2 : γ → List PyVal) (g3 : γ → String) :
    mkFits (l.map g1) (l.map g2) (l.map g3) = l.map (fun v => ⟨g1 v, g2 v, g3 v⟩) := by
  induction l with
  | nil => rfl
  | cons a t ih => simp [mkFits] at ih ⊢; exact ih

theorem plotFits_length (fits : List Fit) (ps : List Panel) (idx : Nat) (t : String) :
    ((plotFits ps idx t fits).1).length = ps.length := by
  induction fits generalizing ps with
  | nil => rfl
  | cons f fs ih =>
    unfold plotFits
    cases h : ps[idx]? with
    | none => rfl
    | some p => rw [ih]; exact List.length_set ps idx _

theorem plotFits_ok (fits : List Fit) (ps : List Panel) (idx : Nat) (t : String)
    (h : idx < ps.length) : (plotFits ps idx t fits).2 = .ok () := by
  induction fits generalizing ps with
  | nil => rfl
  | cons f fs ih =>
    unfold plotFits
    rw [List.getElem?_eq_getElem h]
    exact ih _ (by rw [List.length_set]; exact h)

theorem catLoop_panels_length (cols : List String) (df : DataFrame) (idx : Nat)
    (ps : List Panel) : ((catLoop df cols idx ps).2.1).length = ps.length := by
  induction cols generalizing idx ps with
  | nil => rfl
  | cons f rest ih =>
    unfold catLoop
    cases hk : kmFitsCat df f with
    | error e => rfl
    | ok fits =>
      rcases h2 : plotFits ps idx f fits with ⟨ps1, r⟩
      have hl : ps1.length = ps.length := by
        have := plotFits_length fits ps idx f
        rw [h2] at this
        exact this
      cases r with
      | error e => simp only [h2]; exact hl
      | ok u => simp only [h2]; rw [ih (idx + 1) ps1]; exact hl

theorem contLoop_panels_length (cols : List String) (df : DataFrame) (idx : Nat)
    (ps : List Panel) : ((contLoop df cols idx ps).2.2.1).length = ps.length := by
  induction cols generalizing df idx ps with
  | nil => rfl
  | cons f rest ih =>
    unfold contLoop
    cases hd : data_split_points[idx]? with
    | none => rfl
    | some spec =>
      rcases hk : kmFitsCont df f spec with ⟨df1, r1⟩
      cases r1 with
      | error e => simp only [hk]
      | ok fits =>
        simp only [hk]
        rcases h2 : plotFits ps idx f fits with ⟨ps1, r⟩
        have hl : ps1.length = ps.length := by
          have := plotFits_length fits ps idx f
          rw [h2] at this
          exact this
        cases r with
        | error e => simp only [h2]; exact hl
        | ok u => simp only [h2]; rw [ih df1 (idx + 1) ps1]; exact hl

theorem hideAt_length (ps : List Panel) (i : Nat) : (hideAt ps i).length = ps.length := by
  unfold hideAt
  cases ps[i]? with
  | none => rfl
  | some p => exact List.length_set ps i _

theorem hideAt_visible (ps : List Panel) (i : Nat) (h : i < ps.length) :
    ((hideAt ps i)[i]?).map Panel.visible = some false := by
  unfold hideAt
  rw [List.getElem?_eq_getElem h]
  simp only []
  rw [List.getElem?_set_self h]
  rfl

theorem hideAt_getElem_ne (ps : List Panel) (i j : Nat) (h : i ≠ j) :
    (hideAt ps i)[j]? = ps[j]? := by
  unfold hideAt
  cases hp : ps[i]? with
  | none => rfl
  | some p => exact List.getElem?_set_ne h

theorem getCol_none_of_hasCol_false (df : DataFrame) (c : String)
    (h : df.hasCol c = false) : df.getCol c = none := by
  unfold DataFrame.hasCol at h
  cases hc : df.getCol c with
  | none => rfl
  | some v => rw [hc] at h; simp at h

theorem dropCol_setCol (df : DataFrame) (c : String) (vs : List PyVal)
    (h : df.hasCol c = false) : (df.setCol c vs).dropCol c = df := by
  unfold DataFrame.setCol DataFrame.dropCol
  rw [h]
  simp only [Bool.false_eq_true, if_false, List.filter_append]
  have h1 : List.filter (fun p => !decide (p.1 = c)) [(c, vs)] = [] := by simp
  have h2 : List.filter (fun p => !decide (p.1 = c)) df.cols = df.cols := by
    apply List.filter_eq_self.mpr
    intro p hp
    have hn := getCol_none_of_hasCol_false df c h
    unfold DataFrame.getCol at hn
    rcases Option.map_eq_none.mp hn with hf
    have := List.find?_eq_none.mp hf p hp
    simpa using this
  rw [h1, h2, List.append_nil]

theorem kmFitsCont_ok_data (df : DataFrame) (f : String) (spec : SplitSpec)
    (hfresh : df.hasCol (f ++ "_group") = false)
    (hok : exOk (kmFitsCont df f spec).2 = true) : (kmFitsCont df f spec).1 = df := by
  unfold kmFitsCont at hok ⊢
  cases h1 : df.getCol f with
  | none => simp only [h1, exOk] at hok; exact Bool.noConfusion hok
  | some vs =>
    simp only [h1] at hok ⊢
    cases h2 : numQs? vs with
    | none => simp only [h2, exOk] at hok; exact Bool.noConfusion hok
    | some xs =>
      simp only [h2] at hok ⊢
      cases h3 : cutEdges xs spec with
      | error e => simp only [h3, exOk] at hok; exact Bool.noConfusion hok
      | ok es =>
        simp only [h3] at hok ⊢
        by_cases hmix : mixedNaN (cutColumn es xs) = true
        case pos => rw [if_pos hmix] at hok; simp [exOk] at hok
        rw [if_neg hmix] at hok ⊢
        cases h4 : (observedBins (cutColumn es xs)).mapM
            (fun v => subSeries (df.setCol (f ++ "_group") (cutColumn es xs))
              (f ++ "_group") v "time") with
        | error e => simp only [h4, exOk] at hok; exact Bool.noConfusion hok
        | ok X =>
          simp only [h4] at hok ⊢
          cases h5 : (observedBins (cutColumn es xs)).mapM
              (fun v => subSeries (df.setCol (f ++ "_group") (cutColumn es xs))
                (f ++ "_group") v "DEATH_EVENT") with
          | error e => simp only [h5, exOk] at hok; exact Bool.noConfusion hok
          | ok Y =>
            simp only [h5] at hok ⊢
            exact dropCol_setCol df (f ++ "_group") (cutColumn es xs) hfresh

theorem contLoop_data (cols : List String) (df : DataFrame) (idx : Nat) (ps : List Panel)
    (hfresh : ∀ f ∈ cols, df.hasCol (f ++ "_group") = false)
    (hok : (contLoop df cols idx ps).2.2.2 = .ok ()) :
    (contLoop df cols idx ps).2.1 = df := by
  induction cols generalizing df idx ps with
  | nil => rfl
  | cons f rest ih =>
    unfold contLoop at hok ⊢
    cases hd : data_split_points[idx]? with
    | none => simp only [hd] at hok; exact Except.noConfusion hok
    | some spec =>
      simp only [hd] at hok ⊢
      rcases hk : kmFitsCont df f spec with ⟨df1, r1⟩
      cases r1 with
      | error e => simp only [hk] at hok; exact Except.noConfusion hok
      | ok fits =>
        have hdf1 : df1 = df := by
          have h := kmFitsCont_ok_data df f spec (hfresh f (by simp)) (by rw [hk]; rfl)
          rw [hk] at h
          exact h
        simp only [hk] at hok ⊢
        rcases h2 : plotFits ps idx f fits with ⟨ps1, r⟩
        cases r with
        | error e => simp only [h2] at hok; exact Except.noConfusion hok
        | ok u =>
          simp only [h2] at hok ⊢
          subst hdf1
          exact ih df1 (idx + 1) ps1 (fun g hg => hfresh g (by simp [hg])) hok

theorem contLoop_fits (cols : List String) (df : DataFrame) (idx : Nat) (ps : List Panel)
    (hfresh : ∀ f ∈ cols, df.hasCol (f ++ "_group") = false)
    (hok : (contLoop df cols idx ps).2.2.2 = .ok ()) :
    (contLoop df cols idx ps).1 =
      ((cols.enumFrom idx).map (fun p =>
        exceptFits (kmFitsCont df p.2 (data_split_points.getD p.1 (SplitSpec.cnt 0))).2)).flatten := by
  induction cols generalizing df idx ps with
  | nil => rfl
  | cons f rest ih =>
    unfold contLoop at hok ⊢
    cases hd : data_split_points[idx]? with
    | none => simp only [hd] at hok; exact Except.noConfusion hok
    | some spec =>
      simp only [hd] at hok ⊢
      rcases hk : kmFitsCont df f spec with ⟨df1, r1⟩
      cases r1 with
      | error e => simp only [hk] at hok; exact Except.noConfusion hok
      | ok fits =>
        have hdf1 : df1 = df := by
          have h := kmFitsCont_ok_data df f spec (hfresh f (by simp)) (by rw [hk]; rfl)
          rw [hk] at h
          exact h
        simp only [hk] at hok ⊢
        rcases h2 : plotFits ps idx f fits with ⟨ps1, r⟩
        cases r with
        | error e => simp only [h2] at hok; exact Except.noConfusion hok
        | ok u =>
          simp only [h2] at hok ⊢
          subst hdf1
          rw [List.enumFrom_cons, List.map_cons, List.flatten_cons]
          have hgd : data_split_points.getD idx (SplitSpec.cnt 0) = spec := by
            rw [List.getD_eq_getElem?_getD, hd]
            rfl
          rw [hgd, hk]
          simp only [exceptFits]
          rw [ih df1 (idx + 1) ps1 (fun g hg => hfresh g (by simp [hg])) hok]
          rfl

theorem contLoop_overflow (cols : List String) (df : DataFrame) (idx : Nat) (ps : List Panel)
    (hidx : idx ≤ 7) (hlen : 8 ≤ idx + cols.length) (hps : ps.length = 9)
    (hfresh : ∀ f ∈ cols, df.hasCol (f ++ "_group") = false)
    (hkm : ∀ p ∈ cols.enumFrom idx, p.1 < 7 →
        exOk (kmFitsCont df p.2 (data_split_points.getD p.1 (SplitSpec.cnt 0))).2 = true) :
    (contLoop df cols idx ps).2.2.2 = .error .indexError := by
  induction cols generalizing df idx ps with
  | nil => simp only [List.length_nil] at hlen; omega
  | cons f rest ih =>
    unfold contLoop
    by_cases h7 : idx = 7
    · subst h7
      have hd : data_split_points[7]? = none := rfl
      simp only [hd]
    · have hlt : idx < 7 := by omega
      have hd : data_split_points[idx]? =
          some (data_split_points.getD idx (SplitSpec.cnt 0)) := by
        interval_cases idx <;> rfl
      simp only [hd]
      have hkmf := hkm (idx, f) (by rw [List.enumFrom_cons]; exact List.mem_cons_self _ _) hlt
      rcases hk : kmFitsCont df f (data_split_points.getD idx (SplitSpec.cnt 0)) with ⟨df1, r1⟩
      rw [hk] at hkmf
      cases r1 with
      | error e => simp [exOk] at hkmf
      | ok fits =>
        have hdf1 : df1 = df := by
          have h := kmFitsCont_ok_data df f (data_split_points.getD idx (SplitSpec.cnt 0))
            (hfresh f (by simp)) (by rw [hk]; rfl)
          rw [hk] at h
          exact h
        simp only [hk]
        rcases h2 : plotFits ps idx f fits with ⟨ps1, r⟩
        have hps1 : ps1.length = 9 := by
          have h := plotFits_length fits ps idx f
          rw [h2] at h
          rw [h]
          exact hps
        have hr : r = .ok () := by
          have h := plotFits_ok fits ps idx f (by omega)
          rw [h2] at h
          exact h
        subst hr
        subst hdf1
        simp only [h2]
        simp only [List.length_cons] at hlen
        exact ih df1 (idx + 1) ps1 (by omega) (by omega) hps1
          (fun g hg => hfresh g (by simp [hg]))
          (fun p hp hplt => hkm p
            (by rw [List.enumFrom_cons]; exact List.mem_cons_of_mem _ hp) hplt)

theorem qlt_iff (a b : PyQ) (ha : 0 < a.d) (hb : 0 < b.d) :
    qlt a b = true ↔ a.toRat < b.toRat := by
  unfold qlt PyQ.toRat
  rw [decide_eq_true_iff]
  rw [div_lt_div_iff₀ (by exact_mod_cast ha) (by exact_mod_cast hb)]
  exact_mod_cast Iff.rfl

theorem qle_iff (a b : PyQ) (ha : 0 < a.d) (hb : 0 < b.d) :
    qle a b = true ↔ a.toRat ≤ b.toRat := by
  unfold qle PyQ.toRat
  rw [decide_eq_true_iff]
  rw [div_le_div_iff₀ (by exact_mod_cast ha) (by exact_mod_cast hb)]
  exact_mod_cast Iff.rfl

theorem qeq_iff (a b : PyQ) (ha : 0 < a.d) (hb : 0 < b.d) :
    qeq a b = true ↔ a.toRat = b.toRat := by
  unfold qeq PyQ.toRat
  rw [beq_iff_eq]
  rw [div_eq_div_iff (by positivity) (by positivity)]
  exact_mod_cast Iff.rfl

theorem keyQ_eq_of_asQ (v : PyVal) (q : PyQ) (h : v.asQ? = some q) : keyQ v = q.toRat := by
  unfold keyQ
  rw [h]

theorem wfNumB_asQ : ∀ (v : PyVal), wfNumB v = true → ∃ q, v.asQ? = some q ∧ 0 < q.d
  | .pint n, _ => ⟨⟨n, 1⟩, rfl, Nat.one_pos⟩
  | .pfloat q, h => ⟨q, rfl, by simpa [wfNumB] using h⟩
  | .pstr _, h => Bool.noConfusion h
  | .pcat _ _, h => Bool.noConfusion h
  | .pnan, h => Bool.noConfusion h

theorem pyEq_num (a b : PyVal) (ha : wfNumB a = true) (hb : wfNumB b = true) :
    pyEq a b = true ↔ keyQ a = keyQ b := by
  rcases wfNumB_asQ a ha with ⟨x, hx, hxd⟩
  rcases wfNumB_asQ b hb with ⟨y, hy, hyd⟩
  rw [keyQ_eq_of_asQ a x hx, keyQ_eq_of_asQ b y hy, ← qeq_iff x y hxd hyd]
  have h : pyEq a b = qeq x y := by
    cases a <;> cases b <;> simp_all [pyEq, PyVal.asQ?, wfNumB]
  rw [h]

theorem pyLt_num (a b : PyVal) (ha : wfNumB a = true) (hb : wfNumB b = true) :
    pyLt a b = true ↔ keyQ a < keyQ b := by
  rcases wfNumB_asQ a ha with ⟨x, hx, hxd⟩
  rcases wfNumB_asQ b hb with ⟨y, hy, hyd⟩
  rw [keyQ_eq_of_asQ a x hx, keyQ_eq_of_asQ b y hy, ← qlt_iff x y hxd hyd]
  have h : pyLt a b = qlt x y := by
    cases a <;> cases b <;> simp_all [pyLt, PyVal.asQ?, wfNumB]
  rw [h]

theorem binOf_some_bounds : ∀ (es : List PyQ) (x lo hi : PyQ),
    binOf es x = some (lo, hi) → qlt lo x = true ∧ qle x hi = true := by
  intro es
  induction es with
  | nil => intro x lo hi h; exact absurd h (by simp [binOf])
  | cons a t ih =>
    cases t with
    | nil => intro x lo hi h; exact absurd h (by simp [binOf])
    | cons b t2 =>
      intro x lo hi h
      unfold binOf at h
      by_cases hc : (qlt a x && qle x b) = true
      · rw [if_pos hc] at h
        obtain ⟨h1, h2⟩ := Prod.mk.injEq .. ▸ Option.some.inj h
        subst h1
        subst h2
        simpa using hc
      · rw [if_neg hc] at h
        exact ih x lo hi h

theorem strictIncr_head_le_getLast : ∀ (t : List PyQ) (a ek : PyQ),
    (∀ e ∈ a :: t, 0 < e.d) → strictIncr (a :: t) = true →
    (a :: t).getLast? = some ek → a.toRat ≤ ek.toRat := by
  intro t
  induction t with
  | nil =>
    intro a ek _ _ hek
    simp at hek
    subst hek
    exact le_refl _
  | cons b t2 ih =>
    intro a ek hwf hs hek
    obtain ⟨hab, hs2⟩ : qlt a b = true ∧ strictIncr (b :: t2) = true := by
      simpa [strictIncr] using hs
    rw [List.getLast?_cons_cons] at hek
    have hb : b.toRat ≤ ek.toRat := ih b ek (fun e he => hwf e (by simp [List.mem_cons] at he ⊢; tauto)) hs2 hek
    have ha := hwf a (by simp)
    have hbwf := hwf b (by simp)
    exact le_trans (le_of_lt ((qlt_iff a b ha hbwf).mp hab)) hb

theorem binOf_isSome_iff (x : PyQ) (hx : 0 < x.d) : ∀ (es : List PyQ),
    (∀ e ∈ es, 0 < e.d) → strictIncr es = true →
    ((binOf es x).isSome = true ↔
      ∃ e0 ek, es.head? = some e0 ∧ es.getLast? = some ek ∧
        qlt e0 x = true ∧ qle x ek = true) := by
  intro es
  induction es with
  | nil => intro _ _; simp [binOf]
  | cons a t ih =>
    cases t with
    | nil =>
      intro hwf _
      have ha := hwf a (by simp)
      constructor
      · intro h; exact absurd h (by simp [binOf])
      · rintro ⟨e0, ek, h0, hk, hlt0, hlek⟩
        simp at h0 hk
        subst h0
        subst hk
        have h1 := (qlt_iff a x ha hx).mp hlt0
        have h2 := (qle_iff x a hx ha).mp hlek
        exact absurd (lt_of_lt_of_le h1 h2) (lt_irrefl _)
    | cons b t2 =>
      intro hwf hs
      obtain ⟨hab, hs2⟩ : qlt a b = true ∧ strictIncr (b :: t2) = true := by
        simpa [strictIncr] using hs
      have ha := hwf a (by simp)
      have hb := hwf b (by simp)
      have hwft : ∀ e ∈ b :: t2, 0 < e.d := fun e he => hwf e (by simp [List.mem_cons] at he ⊢; tauto)
      unfold binOf
      by_cases hc : (qlt a x && qle x b) = true
      · rw [if_pos hc]
        obtain ⟨hax, hxb⟩ : qlt a x = true ∧ qle x b = true := by simpa using hc
        simp only [Option.isSome_some, true_iff]
        obtain ⟨ek, hek⟩ := Option.isSome_iff_exists.mp
          (by rw [List.getLast?_isSome]; simp : ((b :: t2).getLast?).isSome = true)
        have hekwf := hwft ek (List.mem_of_mem_getLast? hek)
        refine ⟨a, ek, rfl, by rw [List.getLast?_cons_cons]; exact hek, hax, ?_⟩
        have hbek := strictIncr_head_le_getLast t2 b ek hwft hs2 hek
        exact (qle_iff x ek hx hekwf).mpr
          (le_trans ((qle_iff x b hx hb).mp hxb) hbek)
      · rw [if_neg hc]
        rw [ih hwft hs2]
        constructor
        · rintro ⟨e0, ek, h0, hk, h1, h2⟩
          simp at h0
          subst h0
          have hekwf := hwft ek (List.mem_of_mem_getLast? hk)
          refine ⟨a, ek, rfl, by rw [List.getLast?_cons_cons]; exact hk, ?_, h2⟩
          have h3 : a.toRat < x.toRat :=
            lt_trans ((qlt_iff a b ha hb).mp hab) ((qlt_iff b x hb hx).mp h1)
          exact (qlt_iff a x ha hx).mpr h3
        · rintro ⟨e0, ek, h0, hk, h1, h2⟩
          simp at h0
          subst h0
          rw [List.getLast?_cons_cons] at hk
          refine ⟨b, ek, rfl, hk, ?_, h2⟩
          have hnxb : ¬ (qle x b = true) := by
            intro hxb
            exact hc (by simp [h1, hxb])
          have hbx : b.toRat < x.toRat := by
            have := fun hh => hnxb ((qle_iff x b hx hb).mpr hh)
            exact not_le.mp this
          exact (qlt_iff b x hb hx).mpr hbx

theorem mem_insertUnique (v u : PyVal) : ∀ (l : List PyVal),
    u ∈ insertUnique v l → u ∈ l ∨ u = v := by
  intro l
  induction l with
  | nil => intro h; simp [insertUnique] at h; exact Or.inr h
  | cons w ws ih =>
    intro h
    unfold insertUnique at h
    by_cases h1 : pyLt v w = true
    · simp only [h1, if_true] at h
      rcases List.mem_cons.mp h with h2 | h2
      · exact Or.inr h2
      · exact Or.inl h2
    · simp only [h1, if_false] at h
      by_cases h2 : pyEq v w = true
      · simp only [h2, if_true] at h
        exact Or.inl h
      · simp only [h2, if_false] at h
        rcases List.mem_cons.mp h with h3 | h3
        · exact Or.inl (by simp [h3])
        · rcases ih h3 with h4 | h4
          · exact Or.inl (by simp [h4])
          · exact Or.inr h4

theorem mem_insertUnique_of_mem (v u : PyVal) : ∀ (l : List PyVal),
    u ∈ l → u ∈ insertUnique v l := by
  intro l
  induction l with
  | nil => intro h; cases h
  | cons w ws ih =>
    intro h
    unfold insertUnique
    by_cases h1 : pyLt v w = true
    · simp only [h1, if_true]
      exact List.mem_cons_of_mem _ h
    · simp only [h1, if_false]
      by_cases h2 : pyEq v w = true
      · simp only [h2, if_true]
        exact h
      · simp only [h2, if_false]
        rcases List.mem_cons.mp h with h3 | h3
        · exact List.mem_cons.mpr (Or.inl h3)
        · exact List.mem_cons.mpr (Or.inr (ih h3))

theorem insertUnique_exists_key (v : PyVal) : ∀ (l : List PyVal), wfNumB v = true →
    (∀ u ∈ l, wfNumB u = true) →
    ∃ u, u ∈ insertUnique v l ∧ wfNumB u = true ∧ keyQ u = keyQ v := by
  intro l
  induction l with
  | nil => intro hv _; exact ⟨v, by simp [insertUnique], hv, rfl⟩
  | cons w ws ih =>
    intro hv hl
    unfold insertUnique
    by_cases h1 : pyLt v w = true
    · exact ⟨v, by simp [h1], hv, rfl⟩
    · simp only [h1, if_false]
      by_cases h2 : pyEq v w = true
      · refine ⟨w, by simp [h2], hl w (by simp), ?_⟩
        exact ((pyEq_num v w hv (hl w (by simp))).mp h2).symm
      · simp only [h2, if_false]
        rcases ih hv (fun u hu => hl u (by simp [hu])) with ⟨u, hu1, hu2, hu3⟩
        exact ⟨u, List.mem_cons_of_mem _ hu1, hu2, hu3⟩

theorem insertUnique_sorted (v : PyVal) : ∀ (l : List PyVal), wfNumB v = true →
    (∀ u ∈ l, wfNumB u = true) →
    l.Pairwise (fun a b => keyQ a < keyQ b) →
    (insertUnique v l).Pairwise (fun a b => keyQ a < keyQ b) := by
  intro l
  induction l with
  | nil => intro _ _ _; simp [insertUnique]
  | cons w ws ih =>
    intro hv hl hs
    have hw : wfNumB w = true := hl w (by simp)
    have hws : ∀ u ∈ ws, wfNumB u = true := fun u hu => hl u (by simp [hu])
    rcases List.pairwise_cons.mp hs with ⟨hwlt, hs2⟩
    unfold insertUnique
    by_cases h1 : pyLt v w = true
    · have hvw : keyQ v < keyQ w := (pyLt_num v w hv hw).mp h1
      simp only [h1, if_true]
      refine List.pairwise_cons.mpr ⟨?_, hs⟩
      intro b hb
      rcases List.mem_cons.mp hb with h3 | h3
      · rw [h3]; exact hvw
      · exact lt_trans hvw (hwlt b h3)
    · simp only [h1, if_false]
      by_cases h2 : pyEq v w = true
      · simp only [h2, if_true]
        exact hs
      · have hwv : keyQ w < keyQ v := by
          have h1q : ¬ keyQ v < keyQ w := fun hh => h1 ((pyLt_num v w hv hw).mpr hh)
          have h2q : ¬ keyQ v = keyQ w := fun hh => h2 ((pyEq_num v w hv hw).mpr hh)
          rcases lt_trichotomy (keyQ w) (keyQ v) with h | h | h
          · exact h
          · exact absurd h.symm h2q
          · exact absurd h h1q
        simp only [h2, if_false]
        refine List.pairwise_cons.mpr ⟨?_, ih hv hws hs2⟩
        intro b hb
        rcases mem_insertUnique v b ws hb with h3 | h3
        · exact hwlt b h3
        · rw [h3]; exact hwv

theorem uniqueSorted_allnum : ∀ (l : List PyVal), (∀ v ∈ l, wfNumB v = true) →
    ∀ u ∈ uniqueSorted l, wfNumB u = true := by
  intro l
  induction l with
  | nil => intro _ u hu; simp [uniqueSorted] at hu
  | cons w ws ih =>
    intro hl u hu
    rw [show uniqueSorted (w :: ws) = insertUnique w (uniqueSorted ws) from rfl] at hu
    rcases mem_insertUnique w u (uniqueSorted ws) hu with h | h
    · exact ih (fun v hv => hl v (by simp [hv])) u h
    · rw [h]; exact hl w (by simp)

theorem uniqueSorted_sorted : ∀ (l : List PyVal), (∀ v ∈ l, wfNumB v = true) →
    (uniqueSorted l).Pairwise (fun a b => keyQ a < keyQ b) := by
  intro l
  induction l with
  | nil => intro _; simp [uniqueSorted]
  | cons w ws ih =>
    intro hl
    rw [show uniqueSorted (w :: ws) = insertUnique w (uniqueSorted ws) from rfl]
    exact insertUnique_sorted w (uniqueSorted ws) (hl w (by simp))
      (uniqueSorted_allnum ws (fun v hv => hl v (by simp [hv])))
      (ih (fun v hv => hl v (by simp [hv])))

theorem uniqueSorted_exists_key : ∀ (l : List PyVal), (∀ v ∈ l, wfNumB v = true) →
    ∀ v ∈ l, ∃ u, u ∈ uniqueSorted l ∧ wfNumB u = true ∧ keyQ u = keyQ v := by
  intro l
  induction l with
  | nil => intro _ v hv; cases hv
  | cons w ws ih =>
    intro hl v hv
    rw [show uniqueSorted (w :: ws) = insertUnique w (uniqueSorted ws) from rfl]
    rcases List.mem_cons.mp hv with h | h
    · rcases insertUnique_exists_key w (uniqueSorted ws) (hl w (by simp))
        (uniqueSorted_allnum ws (fun x hx => hl x (by simp [hx]))) with ⟨u, hu1, hu2, hu3⟩
      exact ⟨u, hu1, hu2, by rw [hu3, h]⟩
    · rcases ih (fun x hx => hl x (by simp [hx])) v h with ⟨u, hu1, hu2, hu3⟩
      exact ⟨u, mem_insertUnique_of_mem w u (uniqueSorted ws) hu1, hu2, hu3⟩

theorem pairwise_key_unique : ∀ (l : List PyVal),
    l.Pairwise (fun a b => keyQ a < keyQ b) →
    ∀ u1 ∈ l, ∀ u2 ∈ l, keyQ u1 = keyQ u2 → u1 = u2 := by
  intro l
  induction l with
  | nil => intro _ u1 h1; cases h1
  | cons w ws ih =>
    intro hs u1 h1 u2 h2 hk
    rcases List.pairwise_cons.mp hs with ⟨hwlt, hs2⟩
    rcases List.mem_cons.mp h1 with h1a | h1a
    · rcases List.mem_cons.mp h2 with h2a | h2a
      · rw [h1a, h2a]
      · exfalso
        rw [h1a] at hk
        exact absurd hk (ne_of_lt (hwlt u2 h2a))
    · rcases List.mem_cons.mp h2 with h2a | h2a
      · exfalso
        rw [h2a] at hk
        exact absurd hk.symm (ne_of_lt (hwlt u1 h1a))
      · exact ih hs2 u1 h1a u2 h2a hk

/-- C1: for every dataset and categorical column, the categorical
routine's `km_fits` produces exactly one Kaplan-Meier fit per distinct
observed value `v` of the column (`k` fits for `k` distinct values, in
ascending order), each fit on exactly the `time` / `DEATH_EVENT` entries
of the rows where the column equals `v`, labeled `"<column>: <value>"`. -/
theorem C1_categorical_km_fits (df : DataFrame) (f : String) (vs ts es : List PyVal)
    (hf : df.getCol f = some vs) (ht : df.getCol "time" = some ts)
    (he : df.getCol "DEATH_EVENT" = some es) :
    kmFitsCat df f = .ok ((uniqueSorted vs).map (fun v =>
      ⟨subgroupSeries df f v "time", subgroupSeries df f v "DEATH_EVENT",
        f ++ ": " ++ pyStr v⟩)) := by
  have hX : (uniqueSorted vs).mapM (fun v => subSeries df f v "time")
      = .ok ((uniqueSorted vs).map (fun v => subgroupSeries df f v "time")) :=
    exceptMapM_ok _ _ _ (fun v _ => subSeries_ok df f v "time" vs ts hf ht)
  have hY : (uniqueSorted vs).mapM (fun v => subSeries df f v "DEATH_EVENT")
      = .ok ((uniqueSorted vs).map (fun v => subgroupSeries df f v "DEATH_EVENT")) :=
    exceptMapM_ok _ _ _ (fun v _ => subSeries_ok df f v "DEATH_EVENT" vs es hf he)
  unfold kmFitsCat
  simp only [hf, hX, hY]
  rw [mkFits_map]

/-- C1 witness: on the scenario dataset (10 rows, `sex` with 6 zeros and
4 ones), `km_fits` yields exactly 2 curves labeled `"sex: 0"` and
`"sex: 1"`, fit on the 6 resp. 4 matching (time, DEATH_EVENT) pairs. -/
theorem C1_witness :
    kmFitsCat dfC1 "sex" = .ok
      [⟨[pI 10, pI 20, pI 30, pI 40, pI 50, pI 60],
        [pI 1, pI 0, pI 1, pI 0, pI 1, pI 0], "sex: 0"⟩,
       ⟨[pI 70, pI 80, pI 90, pI 100], [pI 1, pI 0, pI 1, pI 0], "sex: 1"⟩] := by
  have h := C1_categorical_km_fits dfC1 "sex"
    [pI 0, pI 0, pI 0, pI 0, pI 0, pI 0, pI 1, pI 1, pI 1, pI 1]
    [pI 10, pI 20, pI 30, pI 40, pI 50, pI 60, pI 70, pI 80, pI 90, pI 100]
    [pI 1, pI 0, pI 1, pI 0, pI 1, pI 0, pI 1, pI 0, pI 1, pI 0]
    (by decide) (by decide) (by decide)
  rw [h]
  decide

/-- C2 counterexample: on the claim's own scenario (`age` cut at
`[30.0, 60.0, 80.0, 100.0]`) the run succeeds, but the labels are NOT
`"30.0 - 60.0)"` etc. - each label keeps the leading `"("` of
`str(pd.Interval)`. -/
theorem C2_counterexample :
    (PlotKaplanMeierEstimatesForContinuousVariables dfC2 ["age"]).result = .ok () ∧
    ¬ ((PlotKaplanMeierEstimatesForContinuousVariables dfC2 ["age"]).fits.map Fit.label
        = ["30.0 - 60.0)", "60.0 - 80.0)", "80.0 - 100.0)"]) := by decide

/-- C2 amended: a bin's label is `str(interval)` with `','` replaced by
`' -'` and `']'` by `')'`, which keeps the interval's leading `"("`: the
scenario yields exactly 3 curves labeled `"(30.0 - 60.0)"`,
`"(60.0 - 80.0)"` and `"(80.0 - 100.0)"`. -/
theorem C2_amended :
    (PlotKaplanMeierEstimatesForContinuousVariables dfC2 ["age"]).result = .ok () ∧
    (PlotKaplanMeierEstimatesForContinuousVariables dfC2 ["age"]).fits.map Fit.label
      = ["(30.0 - 60.0)", "(60.0 - 80.0)", "(80.0 - 100.0)"] ∧
    (PlotKaplanMeierEstimatesForContinuousVariables dfC2 ["age"]).fits.length = 3 := by decide

/-- C3 counterexample: with cut points `[30.0, 60.0, 80.0, 100.0]` the
value 20 falls in no bin, so on a 4-row dataset containing `age = 20`
(alongside in-range rows) the partition cannot be exhaustive - and the
routine produces no curves at all there: `np.unique` raises `TypeError`
sorting the row's NaN against the intervals and the call aborts with
zero fits, so the panel holds no covering curves either. -/
theorem C3_counterexample :
    binOf [qint 30, qint 60, qint 80, qint 100] (qint 20) = none ∧
    (dfC3.getCol "age").map List.length = some 4 ∧
    (PlotKaplanMeierEstimatesForContinuousVariables dfC3 ["age"]).result
      = .error .typeError ∧
    (PlotKaplanMeierEstimatesForContinuousVariables dfC3 ["age"]).fits = [] := by decide

/-- C3 amended: subgroups are disjoint, and exhaustive only where the
bins reach: (1) for a categorical (numeric) column every row value
matches exactly one entry of `np.unique`; (2) a row assigned to a bin
lies strictly above its lower and at most its upper edge (bins are
disjoint since `binOf` assigns at most one); (3) for strictly increasing
edges a row is in some bin iff its value is above the first edge and at
most the last - rows outside that range are in no subgroup; (4) when a
column mixes in-range and out-of-range rows, the continuous routine does
not partition at all: `np.unique` raises `TypeError` and the call
aborts. -/
theorem C3_amended :
    (∀ (vs : List PyVal), (∀ v ∈ vs, wfNumB v = true) →
      ∀ v ∈ vs, ∃! u, u ∈ uniqueSorted vs ∧ pyEq v u = true) ∧
    (∀ (es : List PyQ) (x lo hi : PyQ), binOf es x = some (lo, hi) →
      qlt lo x = true ∧ qle x hi = true) ∧
    (∀ (es : List PyQ) (x : PyQ), 0 < x.d → (∀ e ∈ es, 0 < e.d) →
      strictIncr es = true →
      ((binOf es x).isSome = true ↔
        ∃ e0 ek, es.head? = some e0 ∧ es.getLast? = some ek ∧
          qlt e0 x = true ∧ qle x ek = true)) ∧
    (∀ (df : DataFrame) (f : String) (rest : List String) (vs : List PyVal)
        (xs es : List PyQ),
      df.getCol f = some vs → numQs? vs = some xs →
      cutEdges xs (SplitSpec.pts [qint 30, qint 60, qint 80, qint 100]) = .ok es →
      mixedNaN (cutColumn es xs) = true →
      (∀ c ∈ f :: rest, df.hasCol c = true) →
      (PlotKaplanMeierEstimatesForContinuousVariables df (f :: rest)).result
        = .error .typeError) := by
  refine ⟨?_, binOf_some_bounds,
    fun es x hx hwf hs => binOf_isSome_iff x hx es hwf hs, ?_⟩
  case refine_2 =>
    intro df f rest vs xs es hvs hnum hcut hmix hall
    have hfind : ((f :: rest).find? (fun c => !df.hasCol c)) = none :=
      List.find?_eq_none.mpr (fun x hx => by simp [hall x hx])
    have hkm : kmFitsCont df f (SplitSpec.pts [qint 30, qint 60, qint 80, qint 100])
        = (df, .error .typeError) := by
      unfold kmFitsCont
      simp only [hvs, hnum, hcut]
      rw [if_pos hmix]
    have hloop : (contLoop df (f :: rest) 0 (mkPanels (3 * 3))).2.2.2
        = .error .typeError := by
      unfold contLoop
      simp only [show data_split_points[0]?
        = some (SplitSpec.pts [qint 30, qint 60, qint 80, qint 100]) from rfl, hkm]
    unfold PlotKaplanMeierEstimatesForContinuousVariables dfProject
    simp only [hfind, hloop]
  intro vs hvs v hv
  have hvwf := hvs v hv
  rcases uniqueSorted_exists_key vs hvs v hv with ⟨u, hu1, hu2, hu3⟩
  refine ⟨u, ⟨hu1, (pyEq_num v u hvwf hu2).mpr hu3.symm⟩, ?_⟩
  rintro u2 ⟨hu21, hu22⟩
  have hu2wf := uniqueSorted_allnum vs hvs u2 hu21
  have hk2 : keyQ v = keyQ u2 := (pyEq_num v u2 hvwf hu2wf).mp hu22
  exact pairwise_key_unique (uniqueSorted vs) (uniqueSorted_sorted vs hvs)
    u2 hu21 u hu1 (hk2.symm.trans hu3.symm)

/-- C3 witness: concrete instances of the four parts of the amended
partition property (the fourth at the counterexample dataset, whose
age 20 makes the binned column mix NaN with intervals). -/
theorem C3_witness :
    (∃! u, u ∈ uniqueSorted [pI 1, pI 0, pI 1, pI 0] ∧ pyEq (pI 1) u = true) ∧
    (qlt (qint 30) (qint 50) = true ∧ qle (qint 50) (qint 60) = true) ∧
    ((binOf [qint 30, qint 60, qint 80, qint 100] (qint 50)).isSome = true ↔
      ∃ e0 ek, [qint 30, qint 60, qint 80, qint 100].head? = some e0 ∧
        [qint 30, qint 60, qint 80, qint 100].getLast? = some ek ∧
        qlt e0 (qint 50) = true ∧ qle (qint 50) ek = true) ∧
    (mixedNaN (cutColumn [qint 30, qint 60, qint 80, qint 100]
        [qint 20, qint 40, qint 70, qint 90]) = true ∧
      (PlotKaplanMeierEstimatesForContinuousVariables dfC3 ["age"]).result
        = .error .typeError) :=
  ⟨C3_amended.1 [pI 1, pI 0, pI 1, pI 0] (by decide) (pI 1) (by decide),
   C3_amended.2.1 [qint 30, qint 60, qint 80, qint 100] (qint 50) (qint 30) (qint 60) (by decide),
   C3_amended.2.2.1 [qint 30, qint 60, qint 80, qint 100] (qint 50) (by decide) (by decide) (by decide),
   by decide,
   C3_amended.2.2.2 dfC3 "age" [] [pI 20, pI 40, pI 70, pI 90]
     [qint 20, qint 40, qint 70, qint 90] [qint 30, qint 60, qint 80, qint 100]
     (by decide) (by decide) (by decide) (by decide) (by decide)⟩

/-- C4 counterexample: when the dataset lacks a `time` column, the
continuous routine raises `KeyError('time')` after adding the scratch
column `age_group` and before dropping it, so the caller's dataset keeps
a residual scratch column - removal is NOT guaranteed on exceptions. -/
theorem C4_counterexample :
    (PlotKaplanMeierEstimatesForContinuousVariables dfC4 ["age"]).result
      = .error (.keyError "time") ∧
    (PlotKaplanMeierEstimatesForContinuousVariables dfC4 ["age"]).data.hasCol "age_group"
      = true := by decide

/-- C4 amended: on a NORMAL return (and provided no listed column's
`"<column>_group"` name already existed), the continuous routine leaves
the caller's dataset exactly as it was - the scratch column is dropped
before the fits are built; an exception raised between the column's
addition and the drop leaves it behind (see the counterexample). -/
theorem C4_amended (df : DataFrame) (cols : List String)
    (hfresh : ∀ f ∈ cols, df.hasCol (f ++ "_group") = false)
    (hok : (PlotKaplanMeierEstimatesForContinuousVariables df cols).result = .ok ()) :
    (PlotKaplanMeierEstimatesForContinuousVariables df cols).data = df := by
  unfold PlotKaplanMeierEstimatesForContinuousVariables at hok ⊢
  cases hp : dfProject df cols with
  | error e => simp only [hp] at hok; exact Except.noConfusion hok
  | ok pr =>
    simp only [hp] at hok ⊢
    cases hx : (contLoop df cols 0 (mkPanels (3 * 3))).2.2.2 with
    | error e => simp only [hx] at hok; exact Except.noConfusion hok
    | ok u =>
      simp only [hx]
      exact contLoop_data cols df 0 (mkPanels (3 * 3)) hfresh (by rw [hx])

/-- C4 witness: a normal run on a well-formed dataset returns the
dataset unchanged, with every hypothesis checked concretely. -/
theorem C4_witness :
    ((∀ f ∈ ["age"], dfW4.hasCol (f ++ "_group") = false) ∧
      (PlotKaplanMeierEstimatesForContinuousVariables dfW4 ["age"]).result = .ok ()) ∧
    (PlotKaplanMeierEstimatesForContinuousVariables dfW4 ["age"]).data = dfW4 :=
  ⟨⟨by decide, by decide⟩, C4_amended dfW4 ["age"] (by decide) (by decide)⟩

/-- C5 counterexample: the hiding is NOT conditional on the column
count: with exactly 6 categorical columns the run succeeds, yet the
last panel - which holds the 6th column's curve - is hidden anyway. -/
theorem C5_counterexample :
    (PlotKaplanMeierEstimatesForCategoricalVariables dfC5 colsC5).result = .ok () ∧
    colsC5.length = 6 ∧
    ((PlotKaplanMeierEstimatesForCategoricalVariables dfC5 colsC5).figure.bind
      (fun fg => fg.panels[5]?)).map Panel.visible = some false ∧
    ((PlotKaplanMeierEstimatesForCategoricalVariables dfC5 colsC5).figure.bind
      (fun fg => fg.panels[5]?)).map (fun p => p.curves.length) = some 1 := by decide

/-- C5 amended: the categorical figure always has exactly 6 panels
(2x3) and the continuous figure exactly 9 (3x3); on every successful
call the categorical routine hides its last panel and the continuous
routine its last two, UNCONDITIONALLY - also when the column count
reaches the grid bound (then a populated panel is hidden, see the
counterexample). -/
theorem C5_amended :
    (∀ (df : DataFrame) (cols : List String),
      (PlotKaplanMeierEstimatesForCategoricalVariables df cols).result = .ok () →
      ∃ fg, (PlotKaplanMeierEstimatesForCategoricalVariables df cols).figure = some fg ∧
        fg.panels.length = 6 ∧ (fg.panels[5]?).map Panel.visible = some false) ∧
    (∀ (df : DataFrame) (cols : List String),
      (PlotKaplanMeierEstimatesForContinuousVariables df cols).result = .ok () →
      ∃ fg, (PlotKaplanMeierEstimatesForContinuousVariables df cols).figure = some fg ∧
        fg.panels.length = 9 ∧ (fg.panels[8]?).map Panel.visible = some false ∧
        (fg.panels[7]?).map Panel.visible = some false) := by
  constructor
  · intro df cols hok
    unfold PlotKaplanMeierEstimatesForCategoricalVariables at hok ⊢
    cases hp : dfProject df cols with
    | error e => simp only [hp] at hok; exact Except.noConfusion hok
    | ok pr =>
      simp only [hp] at hok ⊢
      cases hx : (catLoop df cols 0 (mkPanels (2 * 3))).2.2 with
      | error e => simp only [hx] at hok; exact Except.noConfusion hok
      | ok u =>
        simp only [hx]
        have hlen : ((catLoop df cols 0 (mkPanels (2 * 3))).2.1).length = 6 := by
          rw [catLoop_panels_length]
          rfl
        refine ⟨⟨hideAt (catLoop df cols 0 (mkPanels (2 * 3))).2.1 (2 * 3 - 1)⟩, rfl, ?_, ?_⟩
        · show (hideAt (catLoop df cols 0 (mkPanels (2 * 3))).2.1 (2 * 3 - 1)).length = 6
          rw [hideAt_length]
          exact hlen
        · exact hideAt_visible ((catLoop df cols 0 (mkPanels (2 * 3))).2.1) 5 (by omega)
  · intro df cols hok
    unfold PlotKaplanMeierEstimatesForContinuousVariables at hok ⊢
    cases hp : dfProject df cols with
    | error e => simp only [hp] at hok; exact Except.noConfusion hok
    | ok pr =>
      simp only [hp] at hok ⊢
      cases hx : (contLoop df cols 0 (mkPanels (3 * 3))).2.2.2 with
      | error e => simp only [hx] at hok; exact Except.noConfusion hok
      | ok u =>
        simp only [hx]
        have hlen : ((contLoop df cols 0 (mkPanels (3 * 3))).2.2.1).length = 9 := by
          rw [contLoop_panels_length]
          rfl
        refine ⟨⟨hideAt (hideAt (contLoop df cols 0 (mkPanels (3 * 3))).2.2.1 (3 * 3 - 1))
          (3 * 3 - 2)⟩, rfl, ?_, ?_, ?_⟩
        · show (hideAt (hideAt (contLoop df cols 0 (mkPanels (3 * 3))).2.2.1 (3 * 3 - 1))
            (3 * 3 - 2)).length = 9
          rw [hideAt_length, hideAt_length]
          exact hlen
        · have h8 : (hideAt (hideAt (contLoop df cols 0 (mkPanels (3 * 3))).2.2.1 8) 7)[8]?
              = (hideAt (contLoop df cols 0 (mkPanels (3 * 3))).2.2.1 8)[8]? :=
            hideAt_getElem_ne _ 7 8 (by omega)
          show ((hideAt (hideAt (contLoop df cols 0 (mkPanels (3 * 3))).2.2.1 8) 7)[8]?).map
            Panel.visible = some false
          rw [h8]
          exact hideAt_visible _ 8 (by omega)
        · show ((hideAt (hideAt (contLoop df cols 0 (mkPanels (3 * 3))).2.2.1 8) 7)[7]?).map
            Panel.visible = some false
          exact hideAt_visible _ 7 (by rw [hideAt_length]; omega)

/-- C5 witness: concrete successful runs of both routines, with the
panel counts and hidden flags evaluated. -/
theorem C5_witness :
    ((PlotKaplanMeierEstimatesForCategoricalVariables dfC5 colsC5).result = .ok () ∧
      ∃ fg, (PlotKaplanMeierEstimatesForCategoricalVariables dfC5 colsC5).figure = some fg ∧
        fg.panels.length = 6 ∧ (fg.panels[5]?).map Panel.visible = some false) ∧
    ((PlotKaplanMeierEstimatesForContinuousVariables dfW4 ["age"]).result = .ok () ∧
      ∃ fg, (PlotKaplanMeierEstimatesForContinuousVariables dfW4 ["age"]).figure = some fg ∧
        fg.panels.length = 9 ∧ (fg.panels[8]?).map Panel.visible = some false ∧
        (fg.panels[7]?).map Panel.visible = some false) :=
  ⟨⟨by decide, C5_amended.1 dfC5 colsC5 (by decide)⟩,
   ⟨by decide, C5_amended.2 dfW4 ["age"] (by decide)⟩⟩

/-- C6: on every successful run of the continuous routine, the fits are
exactly those of `km_fits` applied, for the column at position `i` of
the supplied list, with the bin spec at position `i` of the fixed
`data_split_points` list - the pairing is purely positional (the column
name never selects the spec), so a misaligned order silently mis-bins
instead of failing. -/
theorem C6_positional_bin_specs (df : DataFrame) (cols : List String)
    (hfresh : ∀ f ∈ cols, df.hasCol (f ++ "_group") = false)
    (hok : (PlotKaplanMeierEstimatesForContinuousVariables df cols).result = .ok ()) :
    (PlotKaplanMeierEstimatesForContinuousVariables df cols).fits =
      ((cols.enum).map (fun p =>
        exceptFits (kmFitsCont df p.2 (data_split_points.getD p.1 (SplitSpec.cnt 0))).2)).flatten := by
  unfold PlotKaplanMeierEstimatesForContinuousVariables at hok ⊢
  cases hp : dfProject df cols with
  | error e => simp only [hp] at hok; exact Except.noConfusion hok
  | ok pr =>
    simp only [hp] at hok ⊢
    cases hx : (contLoop df cols 0 (mkPanels (3 * 3))).2.2.2 with
    | error e => simp only [hx] at hok; exact Except.noConfusion hok
    | ok u =>
      simp only [hx]
      exact contLoop_fits cols df 0 (mkPanels (3 * 3)) hfresh (by rw [hx])

/-- C6 witness: a column named `serum_sodium` passed at position 0 is
binned with position 0's cut points `[30.0, 60.0, 80.0, 100.0]` -
whatever its name suggests - and the run succeeds. -/
theorem C6_witness :
    ((∀ f ∈ ["serum_sodium"], dfW6.hasCol (f ++ "_group") = false) ∧
      (PlotKaplanMeierEstimatesForContinuousVariables dfW6 ["serum_sodium"]).result = .ok ()) ∧
    (PlotKaplanMeierEstimatesForContinuousVariables dfW6 ["serum_sodium"]).fits =
      ((["serum_sodium"].enum).map (fun p =>
        exceptFits (kmFitsCont dfW6 p.2 (data_split_points.getD p.1 (SplitSpec.cnt 0))).2)).flatten ∧
    (PlotKaplanMeierEstimatesForContinuousVariables dfW6 ["serum_sodium"]).fits.map Fit.label
      = ["(30.0 - 60.0)", "(60.0 - 80.0)"] :=
  ⟨⟨by decide, by decide⟩,
   C6_positional_bin_specs dfW6 ["serum_sodium"] (by decide) (by decide),
   by decide⟩

/-- C7: failures propagate as unhandled exceptions: a listed column
absent from the dataset makes either routine return a `KeyError`; a
non-numeric column fed to `pd.cut` makes the continuous routine return
a `TypeError`; and a bin-spec count mismatch (8 columns against the
7-entry spec list) returns an `IndexError` - no retry or recovery
anywhere. -/
theorem C7_error_propagation :
    (∀ (df : DataFrame) (cols : List String) (c : String), c ∈ cols → df.getCol c = none →
      ∃ k, (PlotKaplanMeierEstimatesForCategoricalVariables df cols).result
        = .error (.keyError k)) ∧
    (∀ (df : DataFrame) (cols : List String) (c : String), c ∈ cols → df.getCol c = none →
      ∃ k, (PlotKaplanMeierEstimatesForContinuousVariables df cols).result
        = .error (.keyError k)) ∧
    (∀ (df : DataFrame) (f : String) (rest : List String) (vs : List PyVal),
      df.getCol f = some vs → numQs? vs = none →
      (∀ c ∈ f :: rest, df.hasCol c = true) →
      (PlotKaplanMeierEstimatesForContinuousVariables df (f :: rest)).result
        = .error .typeError) ∧
    (PlotKaplanMeierEstimatesForContinuousVariables dfC7 colsC7).result
      = .error .indexError := by
  refine ⟨?_, ?_, ?_, by decide⟩
  · intro df cols c hc hnone
    have hfind : (cols.find? (fun c => !df.hasCol c)).isSome :=
      List.find?_isSome.mpr ⟨c, hc, by simp [DataFrame.hasCol, hnone]⟩
    rcases Option.isSome_iff_exists.mp hfind with ⟨c2, hc2⟩
    refine ⟨c2, ?_⟩
    unfold PlotKaplanMeierEstimatesForCategoricalVariables dfProject
    simp only [hc2]
  · intro df cols c hc hnone
    have hfind : (cols.find? (fun c => !df.hasCol c)).isSome :=
      List.find?_isSome.mpr ⟨c, hc, by simp [DataFrame.hasCol, hnone]⟩
    rcases Option.isSome_iff_exists.mp hfind with ⟨c2, hc2⟩
    refine ⟨c2, ?_⟩
    unfold PlotKaplanMeierEstimatesForContinuousVariables dfProject
    simp only [hc2]
  · intro df f rest vs hvs hnum hall
    have hfind : ((f :: rest).find? (fun c => !df.hasCol c)) = none :=
      List.find?_eq_none.mpr (fun x hx => by simp [hall x hx])
    have hkm : kmFitsCont df f (SplitSpec.pts [qint 30, qint 60, qint 80, qint 100])
        = (df, .error .typeError) := by
      unfold kmFitsCont
      simp only [hvs, hnum]
    have hloop : (contLoop df (f :: rest) 0 (mkPanels (3 * 3))).2.2.2
        = .error .typeError := by
      unfold contLoop
      simp only [show data_split_points[0]?
        = some (SplitSpec.pts [qint 30, qint 60, qint 80, qint 100]) from rfl, hkm]
    unfold PlotKaplanMeierEstimatesForContinuousVariables dfProject
    simp only [hfind, hloop]

/-- C7 witness: a missing column yields a `KeyError` from both routines,
and a string-valued column yields a `TypeError` from the continuous
routine. -/
theorem C7_witness :
    (∃ k, (PlotKaplanMeierEstimatesForCategoricalVariables dfW9 ["volume"]).result
      = .error (.keyError k)) ∧
    (∃ k, (PlotKaplanMeierEstimatesForContinuousVariables dfW9 ["volume"]).result
      = .error (.keyError k)) ∧
    (PlotKaplanMeierEstimatesForContinuousVariables dfW7 ["g"]).result = .error .typeError :=
  ⟨C7_error_propagation.1 dfW9 ["volume"] "volume" (by decide) (by decide),
   C7_error_propagation.2.1 dfW9 ["volume"] "volume" (by decide) (by decide),
   C7_error_propagation.2.2.1 dfW7 "g" [] [.pstr "male", .pstr "female"]
     (by decide) (by decide) (by decide)⟩

/-- C8: the continuous routine's internal `data_split_points` list has
exactly 7 entries, so any call with 8 or more (present, binnable)
columns fails with an `IndexError` when fetching the 8th column's bin
spec - the routine's effective capacity is 7 columns, not the 9 panels
of its grid. -/
theorem C8_column_capacity (df : DataFrame) (cols : List String)
    (hlen : 8 ≤ cols.length)
    (hall : ∀ c ∈ cols, df.hasCol c = true)
    (hfresh : ∀ f ∈ cols, df.hasCol (f ++ "_group") = false)
    (hkm : ∀ p ∈ cols.enum, p.1 < 7 →
      exOk (kmFitsCont df p.2 (data_split_points.getD p.1 (SplitSpec.cnt 0))).2 = true) :
    (PlotKaplanMeierEstimatesForContinuousVariables df cols).result = .error .indexError ∧
    data_split_points.length = 7 := by
  refine ⟨?_, rfl⟩
  have hfind : (cols.find? (fun c => !df.hasCol c)) = none :=
    List.find?_eq_none.mpr (fun x hx => by simp [hall x hx])
  have hloop := contLoop_overflow cols df 0 (mkPanels (3 * 3))
    (by omega) (by omega) rfl hfresh hkm
  unfold PlotKaplanMeierEstimatesForContinuousVariables dfProject
  simp only [hfind, hloop]

/-- C8 witness: a concrete 8-column call (all columns present and
binnable, every hypothesis evaluated) fails with `IndexError`. -/
theorem C8_witness :
    ((8 ≤ colsC8.length) ∧ (∀ c ∈ colsC8, dfC8.hasCol c = true) ∧
      (∀ f ∈ colsC8, dfC8.hasCol (f ++ "_group") = false) ∧
      (∀ p ∈ colsC8.enum, p.1 < 7 →
        exOk (kmFitsCont dfC8 p.2 (data_split_points.getD p.1 (SplitSpec.cnt 0))).2 = true)) ∧
    (PlotKaplanMeierEstimatesForContinuousVariables dfC8 colsC8).result = .error .indexError ∧
    data_split_points.length = 7 :=
  ⟨⟨by decide, by decide, by decide, by decide⟩,
   C8_column_capacity dfC8 colsC8 (by decide) (by decide) (by decide) (by decide)⟩

/-- C9: both routines project the dataset onto the whole supplied column
list first (line 38 resp. 108); if any listed column is missing, the call
returns the `KeyError` with NO fit performed, NO figure created and the
dataset untouched. -/
theorem C9_projection_first :
    (∀ (df : DataFrame) (cols : List String) (c : String), c ∈ cols → df.getCol c = none →
      ∃ k, PlotKaplanMeierEstimatesForCategoricalVariables df cols
        = ⟨[], none, df, .error (.keyError k)⟩) ∧
    (∀ (df : DataFrame) (cols : List String) (c : String), c ∈ cols → df.getCol c = none →
      ∃ k, PlotKaplanMeierEstimatesForContinuousVariables df cols
        = ⟨[], none, df, .error (.keyError k)⟩) := by
  constructor
  · intro df cols c hc hnone
    have hfind : (cols.find? (fun c => !df.hasCol c)).isSome :=
      List.find?_isSome.mpr ⟨c, hc, by simp [DataFrame.hasCol, hnone]⟩
    rcases Option.isSome_iff_exists.mp hfind with ⟨c2, hc2⟩
    refine ⟨c2, ?_⟩
    unfold PlotKaplanMeierEstimatesForCategoricalVariables dfProject
    simp only [hc2]
  · intro df cols c hc hnone
    have hfind : (cols.find? (fun c => !df.hasCol c)).isSome :=
      List.find?_isSome.mpr ⟨c, hc, by simp [DataFrame.hasCol, hnone]⟩
    rcases Option.isSome_iff_exists.mp hfind with ⟨c2, hc2⟩
    refine ⟨c2, ?_⟩
    unfold PlotKaplanMeierEstimatesForContinuousVariables dfProject
    simp only [hc2]

/-- C9 witness: with `volume` missing (and `sex` present and fittable),
both routines return the KeyError outcome with no fits, no figure and
the dataset unchanged. -/
theorem C9_witness :
    (∃ k, PlotKaplanMeierEstimatesForCategoricalVariables dfW9 ["sex", "volume"]
      = ⟨[], none, dfW9, .error (.keyError k)⟩) ∧
    (∃ k, PlotKaplanMeierEstimatesForContinuousVariables dfW9 ["sex", "volume"]
      = ⟨[], none, dfW9, .error (.keyError k)⟩) :=
  ⟨C9_projection_first.1 dfW9 ["sex", "volume"] "volume" (by decide) (by decide),
   C9_projection_first.2 dfW9 ["sex", "volume"] "volume" (by decide) (by decide)⟩

end HF
